import Mathlib

/-!
Verification of the easykey Python client library
(`src/python/build/lib/easykey/__init__.py`): a shallow embedding of its
binary discovery, subprocess invocation and output-translation layer,
together with theorems settling the specification's claims.

Python strings are modelled as Lean `String`; the string operations the
source uses (`str.strip`, `str.split`, `int`, `json.loads`, substring
tests) are modelled by executable functions over `List Char` below.
-/

namespace EasyKey

/-- Characters treated as whitespace by Python's `str.strip()` and
`str.split()` with no separator (the ASCII whitespace subset; the source
never deals in non-ASCII whitespace). -/
def isPySpace (c : Char) : Bool :=
  c = ' ' || c = '\t' || c = '\n' || c = '\r' || c = '\x0b' || c = '\x0c'

/-- Python `str.lstrip()` on the character list. -/
def lstripChars (l : List Char) : List Char := l.dropWhile isPySpace

/-- Python `str.rstrip()` on the character list. -/
def rstripChars (l : List Char) : List Char := (l.reverse.dropWhile isPySpace).reverse

/-- Python `str.strip()` on the character list. -/
def stripChars (l : List Char) : List Char := rstripChars (lstripChars l)

/-- Python `str.strip()`. -/
def pyStrip (s : String) : String := ⟨stripChars s.data⟩

/-- Python `str.split(sep)` for a one-character separator: every occurrence
splits, empty pieces are kept (`"".split(c) == ['']`). -/
def splitOnChar (sep : Char) : List Char → List (List Char)
  | [] => [[]]
  | c :: cs =>
    match splitOnChar sep cs with
    | [] => [[]]
    | l :: ls => if c = sep then [] :: l :: ls else (c :: l) :: ls

/-- Python `str.split(sep, 1)` restricted to the case the source guards by
`if sep in line`: returns the text before and after the first occurrence of
`sep`, or `none` when `sep` does not occur. -/
def splitFirstOn (sep : Char) : List Char → Option (List Char × List Char)
  | [] => none
  | c :: cs =>
    if c = sep then some ([], cs)
    else
      match splitFirstOn sep cs with
      | none => none
      | some (a, b) => some (c :: a, b)

/-- Worker for `pySplitWs`; the first argument accumulates the current word
in reverse. -/
def pySplitWsGo : List Char → List Char → List (List Char)
  | cur, [] => if cur = [] then [] else [cur.reverse]
  | cur, c :: cs =>
    if isPySpace c then
      if cur = [] then pySplitWsGo [] cs else cur.reverse :: pySplitWsGo [] cs
    else pySplitWsGo (c :: cur) cs

/-- Python `str.split()` with no argument: split on runs of whitespace,
discarding empty pieces. -/
def pySplitWs (l : List Char) : List (List Char) := pySplitWsGo [] l

/-- Substring test on character lists: does `needle` occur contiguously in
the second list? -/
def pyInChars (needle : List Char) : List Char → Bool
  | [] => needle.isEmpty
  | c :: cs => List.isPrefixOf needle (c :: cs) || pyInChars needle cs

/-- Python's `needle in haystack` substring test. -/
def pyIn (needle haystack : String) : Bool :=
  pyInChars needle.data haystack.data

/-- The Python exceptions the source raises or lets escape: `ValueError`
(raised directly by `cleanup_vault`'s confirmation check and by a failing
`int()` conversion) and the library's own `EasyKeyError`. -/
inductive PyError where
  | valueError (msg : String)
  | easyKeyError (msg : String)
deriving DecidableEq

/-- The exact message of the `ValueError` raised by `cleanup_vault` when
`confirm` is not true (source lines 194-198). -/
def cleanupConfirmMsg : String :=
  "cleanup_vault is a destructive operation that removes ALL secrets. You must pass confirm=True to proceed."

/-- The spec's `CommandFailed` error kind as it is realized in the code: an
`EasyKeyError` whose message carries one of the two fixed non-zero-exit
failure prefixes (source lines 58 and 216). -/
def commandFailedKind : PyError → Bool
  | .easyKeyError m =>
    List.isPrefixOf "easykey command failed: ".data m.data ||
    List.isPrefixOf "Cleanup failed: ".data m.data
  | .valueError _ => false

/-- The spec's `OutputParseError` error kind as it is realized in the code:
an `EasyKeyError` whose message carries the JSON-parse failure prefix
(source line 145). -/
def outputParseErrorKind : PyError → Bool
  | .easyKeyError m => List.isPrefixOf "Failed to parse easykey output: ".data m.data
  | .valueError _ => false

/-- The spec's `BinaryNotFound` error kind as it is realized in the code: an
`EasyKeyError` whose message starts with the binary-not-found text (source
lines 39-42, 60 and 234). -/
def binaryNotFoundKind : PyError → Bool
  | .easyKeyError m => List.isPrefixOf "easykey binary not found".data m.data
  | .valueError _ => false

/-- The spec's `ConfirmationRequired` error kind as it is realized in the
code: the `ValueError` with `cleanup_vault`'s confirmation message. -/
def confirmationRequiredKind (e : PyError) : Bool :=
  e = .valueError cleanupConfirmMsg

/-- Decimal digit value, else `none`. -/
def pyDigit? (c : Char) : Option Nat :=
  if '0' ≤ c ∧ c ≤ '9' then some (c.toNat - '0'.toNat) else none

/-- Digits of a Python integer literal after the first one: single
underscores are permitted between digits. -/
def pyIntDigitsGo (acc : Nat) : List Char → Option Nat
  | [] => some acc
  | '_' :: c :: cs =>
    match pyDigit? c with
    | some d => pyIntDigitsGo (acc * 10 + d) cs
    | none => none
  | '_' :: [] => none
  | c :: cs =>
    match pyDigit? c with
    | some d => pyIntDigitsGo (acc * 10 + d) cs
    | none => none

/-- A nonempty digit run (first character must be a digit). -/
def pyIntNat : List Char → Option Nat
  | [] => none
  | c :: cs =>
    match pyDigit? c with
    | some d => pyIntDigitsGo d cs
    | none => none

/-- Python `int(s)` for a decimal string: surrounding whitespace is
stripped, an optional sign precedes a nonempty digit run (ASCII digits;
the source only ever feeds it ASCII subprocess output). `none` models the
`ValueError` that `int()` raises on an invalid literal. -/
def pyIntOfChars (l : List Char) : Option Int :=
  match stripChars l with
  | '+' :: rest => (pyIntNat rest).map Int.ofNat
  | '-' :: rest => (pyIntNat rest).map (fun n => -(n : Int))
  | rest => (pyIntNat rest).map Int.ofNat

/-- The message of the `ValueError` raised by Python's `int()` on an
invalid literal (quoting is the common case of `repr` on a string without
special characters, which is all the claims exercise). -/
def intLiteralErrMsg (val : String) : String :=
  "invalid literal for int() with base 10: '" ++ val ++ "'"

/-- The values Python's `json.loads` can decode. Numbers keep their JSON
lexeme (the source never inspects numeric values, it passes the decoded
data through), objects keep Python `dict` insertion-order semantics. -/
inductive JVal where
  | null
  | bool (b : Bool)
  | num (lexeme : String)
  | str (s : String)
  | arr (elems : List JVal)
  | obj (entries : List (String × JVal))

/-- JSON whitespace (exactly the four characters Python's json module
skips between tokens). -/
def skipJsonWs (cs : List Char) : List Char :=
  cs.dropWhile (fun c => c = ' ' || c = '\t' || c = '\n' || c = '\r')

/-- Hexadecimal digit value, else `none`. -/
def hexVal? (c : Char) : Option Nat :=
  if '0' ≤ c ∧ c ≤ '9' then some (c.toNat - '0'.toNat)
  else if 'a' ≤ c ∧ c ≤ 'f' then some (c.toNat - 'a'.toNat + 10)
  else if 'A' ≤ c ∧ c ≤ 'F' then some (c.toNat - 'F'.toNat + 10)
  else none

/-- Python `dict` assignment `d[k] = v` on an insertion-ordered
association list: an existing key keeps its position and gets the new
value, a new key is appended. -/
def jObjInsert : List (String × JVal) → String → JVal → List (String × JVal)
  | [], k, v => [(k, v)]
  | (k0, v0) :: rest, k, v =>
    if k0 = k then (k0, v) :: rest else (k0, v0) :: jObjInsert rest k v

/-- JSON string body after the opening quote; the first argument
accumulates decoded characters in reverse. Unescaped control characters
are rejected (Python's strict mode); a `\\u` escape decodes its code
unit (lone surrogates, which Lean `Char` cannot carry, fall to the
`Char.ofNat` default and are out of scope for every claim). -/
def parseJString : List Char → List Char → Option (String × List Char)
  | _, [] => none
  | acc, '"' :: rest => some (⟨acc.reverse⟩, rest)
  | acc, '\\' :: esc =>
    match esc with
    | '"' :: r => parseJString ('"' :: acc) r
    | '\\' :: r => parseJString ('\\' :: acc) r
    | '/' :: r => parseJString ('/' :: acc) r
    | 'b' :: r => parseJString ('\x08' :: acc) r
    | 'f' :: r => parseJString ('\x0c' :: acc) r
    | 'n' :: r => parseJString ('\n' :: acc) r
    | 'r' :: r => parseJString ('\r' :: acc) r
    | 't' :: r => parseJString ('\t' :: acc) r
    | 'u' :: h1 :: h2 :: h3 :: h4 :: r =>
      match hexVal? h1, hexVal? h2, hexVal? h3, hexVal? h4 with
      | some a, some b, some c, some d =>
        parseJString (Char.ofNat (((a * 16 + b) * 16 + c) * 16 + d) :: acc) r
      | _, _, _, _ => none
    | _ => none
  | acc, c :: rest =>
    if c.toNat < 32 then none else parseJString (c :: acc) rest

/-- JSON number lexeme: `-? (0 | [1-9][0-9]*) (. [0-9]+)? ([eE][+-]?[0-9]+)?`.
Returns the lexeme and the remaining input. -/
def parseJNum (cs : List Char) : Option (String × List Char) :=
  let signPart : List Char × List Char :=
    match cs with
    | '-' :: r => (['-'], r)
    | _ => ([], cs)
  let neg := signPart.1
  let cs1 := signPart.2
  match cs1 with
  | [] => none
  | c :: _ =>
    if !c.isDigit then none
    else
      let intPart : List Char × List Char :=
        match cs1 with
        | '0' :: r => (['0'], r)
        | _ => (cs1.takeWhile Char.isDigit, cs1.dropWhile Char.isDigit)
      let ipart := intPart.1
      let cs2 := intPart.2
      let fracPart : List Char × List Char :=
        match cs2 with
        | '.' :: r =>
          let ds := r.takeWhile Char.isDigit
          if ds = [] then ([], cs2) else ('.' :: ds, r.dropWhile Char.isDigit)
        | _ => ([], cs2)
      let cs3 := fracPart.2
      let expPart : List Char × List Char :=
        match cs3 with
        | e :: r =>
          if e = 'e' || e = 'E' then
            let sgnPart : List Char × List Char :=
              match r with
              | '+' :: rr => (['+'], rr)
              | '-' :: rr => (['-'], rr)
              | _ => ([], r)
            let ds := sgnPart.2.takeWhile Char.isDigit
            if ds = [] then ([], cs3)
            else (e :: (sgnPart.1 ++ ds), sgnPart.2.dropWhile Char.isDigit)
          else ([], cs3)
        | [] => ([], cs3)
      some (⟨neg ++ ipart ++ fracPart.1 ++ expPart.1⟩, expPart.2)

mutual

/-- One JSON value, recursive-descent with explicit fuel (every recursive
call decreases it; `jsonLoads` supplies ample fuel). Mirrors what Python's
`json.loads` accepts, including the non-standard `NaN`, `Infinity` and
`-Infinity` constants it allows by default. -/
def parseJVal : Nat → List Char → Option (JVal × List Char)
  | 0, _ => none
  | fuel + 1, cs =>
    match skipJsonWs cs with
    | 'n' :: 'u' :: 'l' :: 'l' :: rest => some (.null, rest)
    | 't' :: 'r' :: 'u' :: 'e' :: rest => some (.bool true, rest)
    | 'f' :: 'a' :: 'l' :: 's' :: 'e' :: rest => some (.bool false, rest)
    | 'N' :: 'a' :: 'N' :: rest => some (.num "NaN", rest)
    | 'I' :: 'n' :: 'f' :: 'i' :: 'n' :: 'i' :: 't' :: 'y' :: rest =>
      some (.num "Infinity", rest)
    | '-' :: 'I' :: 'n' :: 'f' :: 'i' :: 'n' :: 'i' :: 't' :: 'y' :: rest =>
      some (.num "-Infinity", rest)
    | '"' :: rest =>
      match parseJString [] rest with
      | some (s, rest2) => some (.str s, rest2)
      | none => none
    | '[' :: rest => parseJArr fuel (skipJsonWs rest) []
    | '{' :: rest => parseJObj fuel (skipJsonWs rest) []
    | other =>
      match parseJNum other with
      | some (lex, rest) => some (.num lex, rest)
      | none => none

/-- Elements of a JSON array after `[` (whitespace already skipped);
`acc` holds the elements parsed so far. -/
def parseJArr : Nat → List Char → List JVal → Option (JVal × List Char)
  | 0, _, _ => none
  | fuel + 1, cs, acc =>
    match acc, cs with
    | [], ']' :: rest => some (.arr [], rest)
    | _, _ =>
      match parseJVal fuel cs with
      | none => none
      | some (v, rest) =>
        match skipJsonWs rest with
        | ',' :: rest2 => parseJArr fuel rest2 (acc ++ [v])
        | ']' :: rest2 => some (.arr (acc ++ [v]), rest2)
        | _ => none

/-- Entries of a JSON object after `{` (whitespace already skipped);
`acc` holds the entries parsed so far, with `dict` upsert semantics. -/
def parseJObj : Nat → List Char → List (String × JVal) → Option (JVal × List Char)
  | 0, _, _ => none
  | fuel + 1, cs, acc =>
    match acc, cs with
    | [], '}' :: rest => some (.obj [], rest)
    | _, _ =>
      match skipJsonWs cs with
      | '"' :: rest =>
        match parseJString [] rest with
        | none => none
        | some (k, rest2) =>
          match skipJsonWs rest2 with
          | ':' :: rest3 =>
            match parseJVal fuel rest3 with
            | none => none
            | some (v, rest4) =>
              match skipJsonWs rest4 with
              | ',' :: rest5 => parseJObj fuel rest5 (jObjInsert acc k v)
              | '}' :: rest5 => some (.obj (jObjInsert acc k v), rest5)
              | _ => none
          | _ => none
      | _ => none

end

/-- Python `json.loads`: parse one JSON value, allow surrounding
whitespace, reject trailing data. `none` models `json.JSONDecodeError`. -/
def jsonLoads (s : String) : Option JVal :=
  match parseJVal (2 * s.data.length + 8) s.data with
  | some (v, rest) => if skipJsonWs rest = [] then some v else none
  | none => none

/-- The captured outcome of a finished subprocess: `returncode`, decoded
`stdout` and `stderr` (the source always runs with `text=True`). -/
structure ProcResult where
  returncode : Int
  stdout : String
  stderr : String
deriving DecidableEq

/-- The environment a call runs against: the result of
`shutil.which('easykey')`, the filesystem probes `os.path.isfile` and
`os.access(·, os.X_OK)`, the home directory used by `os.path.expanduser`,
the package directory `os.path.dirname(__file__)`, and the behaviour of a
spawned subprocess — given the binary path, the argument list and the
text written to stdin (`none` when stdin is not used), either the finished
process or `none` for a `FileNotFoundError` at spawn time. -/
structure World where
  whichEasykey : Option String
  isFile : String → Bool
  accessXOK : String → Bool
  homedir : String
  pkgdir : String
  run : String → List String → Option String → Option ProcResult

/-- `os.path.expanduser`'s treatment of the user home: trailing path
separators are stripped before the `~`-relative part is appended. -/
def rstripSlash (s : String) : String :=
  ⟨(s.data.reverse.dropWhile (· = '/')).reverse⟩

/-- `os.path.join(a, b)` for POSIX paths. -/
def pyPathJoin (a b : String) : String :=
  if List.isPrefixOf ['/'] b.data then b
  else if a = "" then b
  else if a.data.getLast? = some '/' then a ++ b
  else a ++ "/" ++ b

/-- The fixed fallback locations probed by `_find_easykey_binary` (source
lines 27-33), in order: system bin, Homebrew bin, per-user bin, and the
path relative to the package's own install directory. -/
def commonPaths (w : World) : List String :=
  ["/usr/local/bin/easykey",
   "/opt/homebrew/bin/easykey",
   rstripSlash w.homedir ++ "/bin/easykey",
   pyPathJoin w.pkgdir "../../bin/easykey"]

/-- The probe applied to each fallback candidate (source line 36):
`os.path.isfile(path) and os.access(path, os.X_OK)`. -/
def binCandidateOK (w : World) (p : String) : Bool :=
  w.isFile p && w.accessXOK p

/-- The message of the `EasyKeyError` raised when no candidate is found
(source lines 39-42). -/
def binaryNotFoundMsg : String :=
  "easykey binary not found. Please ensure easykey is installed and available in PATH, or install it to one of the standard locations: /usr/local/bin, /opt/homebrew/bin, or ~/bin"

/-- `_find_easykey_binary` (source lines 19-42): the `shutil.which` hit
wins outright; otherwise the first fallback candidate that is an existing
executable file; otherwise an `EasyKeyError` naming the search
locations. -/
def find_easykey_binary (w : World) : Except PyError String :=
  match w.whichEasykey with
  | some p => .ok p
  | none =>
    match (commonPaths w).find? (binCandidateOK w) with
    | some p => .ok p
    | none => .error (.easyKeyError binaryNotFoundMsg)

/-- `str(e)` for the `FileNotFoundError` a failed spawn raises. -/
def pyFnfMsg (path : String) : String :=
  "[Errno 2] No such file or directory: '" ++ path ++ "'"

/-- `str(e)` for `subprocess.CalledProcessError` (the generic fallback used
when stderr is empty). For the usual positive exit status it is
"Command '[...]' returned non-zero exit status N."; the negative-status
(signal) wording is abbreviated, which no claim observes. -/
def pyCPEStr (argv : List String) (code : Int) : String :=
  let cmd := "[" ++ String.intercalate ", " (argv.map (fun s => "'" ++ s ++ "'")) ++ "]"
  if code < 0 then
    "Command '" ++ cmd ++ "' died with signal " ++ toString (-code) ++ "."
  else
    "Command '" ++ cmd ++ "' returned non-zero exit status " ++ toString code ++ "."

/-- The `EasyKeyError` message `_run_easykey_command` builds on a non-zero
exit (source lines 56-58): the stripped stderr when stderr is nonempty,
else `str(e)` of the `CalledProcessError`. -/
def commandFailedMsg (argv : List String) (r : ProcResult) : String :=
  "easykey command failed: " ++
    (if r.stderr ≠ "" then pyStrip r.stderr else pyCPEStr argv r.returncode)

/-- `_run_easykey_command` (source lines 45-60): locate the binary (an
`EasyKeyError` from the locator propagates uncaught), spawn it with the
given arguments, and either return the stripped stdout (zero exit), raise
the command-failed `EasyKeyError` (non-zero exit), or raise the
binary-not-found `EasyKeyError` (spawn `FileNotFoundError`). -/
def run_easykey_command (w : World) (args : List String) : Except PyError String :=
  match find_easykey_binary w with
  | .error e => .error e
  | .ok path =>
    match w.run path args none with
    | none => .error (.easyKeyError ("easykey binary not found: " ++ pyFnfMsg path))
    | some r =>
      if r.returncode = 0 then .ok (pyStrip r.stdout)
      else .error (.easyKeyError (commandFailedMsg (path :: args) r))

/-- The optional `--reason` flag pair; Python's `if reason:` treats an
empty string as absent. -/
def reasonArgs : Option String → List String
  | some r => if r = "" then [] else ["--reason", r]
  | none => []

/-- The argument vector `secret` builds (source lines 77-79). -/
def secretArgs (name : String) (reason : Option String) : List String :=
  ["get", name, "--quiet"] ++ reasonArgs reason

/-- `secret` (source lines 63-81): retrieve a secret, returning the
stripped stdout of `easykey get <name> --quiet [--reason <r>]`. -/
def secret (w : World) (name : String) (reason : Option String) : Except PyError String :=
  run_easykey_command w (secretArgs name reason)

/-- `set_secret` (source lines 84-100): store a secret via
`easykey set <name> <value> [--reason <r>]`; only failure is observable. -/
def set_secret (w : World) (name value : String) (reason : Option String) :
    Except PyError Unit :=
  match run_easykey_command w (["set", name, value] ++ reasonArgs reason) with
  | .error e => .error e
  | .ok _ => .ok ()

/-- `remove_secret` (source lines 103-118): remove a secret via
`easykey remove <name> [--reason <r>]`. -/
def remove_secret (w : World) (name : String) (reason : Option String) :
    Except PyError Unit :=
  match run_easykey_command w (["remove", name] ++ reasonArgs reason) with
  | .error e => .error e
  | .ok _ => .ok ()

/-- The argument vector `list_secrets` builds (source lines 134-136). -/
def listArgs (include_timestamps : Bool) : List String :=
  ["list", "--json"] ++ (if include_timestamps then ["--verbose"] else [])

/-- Approximation of the textual detail of Python's `json.JSONDecodeError`
(a stdlib-owned message; the source only prefixes it, and every claim
depends on the prefix alone, never on this detail). -/
def pyJsonErrStr (output : String) : String :=
  let _ := output
  "Expecting value: line 1 column 1 (char 0)"

/-- The message of the `EasyKeyError` raised by `list_secrets` on
undecodable JSON (source line 145). -/
def jsonParseFailMsg (output : String) : String :=
  "Failed to parse easykey output: " ++ pyJsonErrStr output

/-- `list_secrets` (source lines 121-145): run `easykey list --json
[--verbose]`; empty (stripped) stdout yields the empty Python list, else
the stdout is decoded by `json.loads` and returned unchanged, a decode
failure raising the parse-failure `EasyKeyError`. -/
def list_secrets (w : World) (include_timestamps : Bool) : Except PyError JVal :=
  match run_easykey_command w (listArgs include_timestamps) with
  | .error e => .error e
  | .ok output =>
    if output = "" then .ok (.arr [])
    else
      match jsonLoads output with
      | some v => .ok v
      | none => .error (.easyKeyError (jsonParseFailMsg output))

/-- The values held in the `status()` result dictionary: the parsed integer
for `secrets`, Python `None` for a `-` `last_access`, and the raw string
otherwise. -/
inductive StatusVal where
  | int (n : Int)
  | str (s : String)
  | null
deriving DecidableEq

/-- Python `dict` assignment on the insertion-ordered `status()` result. -/
def statusInsert : List (String × StatusVal) → String → StatusVal → List (String × StatusVal)
  | [], k, v => [(k, v)]
  | (k0, v0) :: rest, k, v =>
    if k0 = k then (k0, v) :: rest else (k0, v0) :: statusInsert rest k v

/-- One line of `status()` output (source lines 164-175): lines without a
colon are skipped; otherwise the line is split on its first colon, both
sides stripped, `secrets` parsed as an integer (an invalid literal raising
`int()`'s `ValueError`), `last_access` mapped to `None` on the `-`
sentinel, and any other key retained with its raw (stripped) value. -/
def statusLine (m : List (String × StatusVal)) (line : List Char) :
    Except PyError (List (String × StatusVal)) :=
  match splitFirstOn ':' line with
  | none => .ok m
  | some (kRaw, vRaw) =>
    let key := stripChars kRaw
    let val := stripChars vRaw
    if key = "secrets".data then
      match pyIntOfChars val with
      | some n => .ok (statusInsert m "secrets" (.int n))
      | none => .error (.valueError (intLiteralErrMsg ⟨val⟩))
    else if key = "last_access".data then
      .ok (statusInsert m "last_access" (if val = ['-'] then .null else .str ⟨val⟩))
    else .ok (statusInsert m ⟨key⟩ (.str ⟨val⟩))

/-- Fold `statusLine` over the lines, stopping at the first error. -/
def statusLinesGo (m : List (String × StatusVal)) :
    List (List Char) → Except PyError (List (String × StatusVal))
  | [] => .ok m
  | l :: ls =>
    match statusLine m l with
    | .ok m2 => statusLinesGo m2 ls
    | .error e => .error e

/-- The parsing phase of `status` applied to the (already stripped)
command output. -/
def statusOfOutput (output : String) : Except PyError (List (String × StatusVal)) :=
  statusLinesGo [] (splitOnChar '\n' output.data)

/-- `status` (source lines 148-177): run `easykey status` and parse its
output as newline-delimited `key: value` lines. -/
def status (w : World) : Except PyError (List (String × StatusVal)) :=
  match run_easykey_command w ["status"] with
  | .error e => .error e
  | .ok output => statusOfOutput output

/-- The Python loop over `line.split()` (source lines 224-227): the first
whitespace token equal to `"Removed"` that has a following token selects
that following token. A `"Removed"` token in last position fails the
`i + 1 < len(parts)` bound and scanning continues. -/
def removedScan : List (List Char) → Option (List Char)
  | [] => none
  | p :: rest =>
    if p = "Removed".data then
      match rest with
      | nxt :: _ => some nxt
      | [] => none
    else removedScan rest

/-- One line of `cleanup` stdout (source lines 220-229): the line is
considered only when it contains both `"Removed"` and `"secrets"` as
substrings (Python's `in`); then the token after the first eligible
`"Removed"` token is fed to `int()`, whose `ValueError` is caught by the
`pass` and abandons the whole line. -/
def parseRemovedLine (line : List Char) : Option Int :=
  if pyInChars "Removed".data line && pyInChars "secrets".data line then
    match removedScan (pySplitWs line) with
    | some tok => pyIntOfChars tok
    | none => none
  else none

/-- Scan the lines in order; the first line that yields a count wins. -/
def extractRemovedCountGo : List (List Char) → Int
  | [] => 0
  | l :: ls =>
    match parseRemovedLine l with
    | some n => n
    | none => extractRemovedCountGo ls

/-- The count-extraction phase of `cleanup_vault` (source lines 220-231):
scan stdout line by line, falling back to `0` when no line yields a
count. -/
def extractRemovedCount (stdout : String) : Int :=
  extractRemovedCountGo (splitOnChar '\n' stdout.data)

/-- The message of the `EasyKeyError` raised by `cleanup_vault` on a
non-zero exit (source lines 214-216). -/
def cleanupFailedMsg (r : ProcResult) : String :=
  "Cleanup failed: " ++ (if r.stderr ≠ "" then pyStrip r.stderr else "Unknown error")

/-- The observable external actions of one `cleanup_vault` call: a binary
lookup, or a spawn with its argument vector, the text written to the
child's stdin, and the outcome. -/
inductive Event where
  | lookup (res : Except PyError String)
  | spawn (argv : List String) (stdinText : Option String) (res : Option ProcResult)

/-- `cleanup_vault` (source lines 180-234), paired with the trace of
external actions it performs. Without `confirm=True` it raises the
confirmation `ValueError` with an empty trace. Otherwise it locates the
binary, spawns `easykey cleanup` writing `"yes\n"` to its stdin, raises
the cleanup-failed `EasyKeyError` on a non-zero exit, and on a zero exit
returns the extracted removed-count. -/
def cleanup_vault (w : World) (confirm : Bool) : Except PyError Int × List Event :=
  if confirm then
    match find_easykey_binary w with
    | .error e => (.error e, [.lookup (.error e)])
    | .ok path =>
      match w.run path ["cleanup"] (some "yes\n") with
      | none =>
        (.error (.easyKeyError ("easykey binary not found: " ++ pyFnfMsg path)),
         [.lookup (.ok path), .spawn [path, "cleanup"] (some "yes\n") none])
      | some r =>
        if r.returncode ≠ 0 then
          (.error (.easyKeyError (cleanupFailedMsg r)),
           [.lookup (.ok path), .spawn [path, "cleanup"] (some "yes\n") (some r)])
        else
          (.ok (extractRemovedCount r.stdout),
           [.lookup (.ok path), .spawn [path, "cleanup"] (some "yes\n") (some r)])
  else
    (.error (.valueError cleanupConfirmMsg), [])

/-- Rendering of claim C5's words, for comparison with the source's
`parseRemovedLine`: a line is considered only when it contains both a
`"Removed"` token and a `"secrets"` token (whitespace-delimited tokens,
not substrings); the extraction step is the same. -/
def tokenSelectRemovedLine (line : List Char) : Option Int :=
  let parts := pySplitWs line
  if parts.contains "Removed".data && parts.contains "secrets".data then
    match removedScan parts with
    | some tok => pyIntOfChars tok
    | none => none
  else none

/-- Scan lines with the token-based selection of claim C5. -/
def tokenSelectRemovedCountGo : List (List Char) → Int
  | [] => 0
  | l :: ls =>
    match tokenSelectRemovedLine l with
    | some n => n
    | none => tokenSelectRemovedCountGo ls

/-- The count extraction claim C5 describes, built on token-based line
selection. -/
def tokenSelectRemovedCount (stdout : String) : Int :=
  tokenSelectRemovedCountGo (splitOnChar '\n' stdout.data)

/-- Lookup in the modelled vault. -/
def vaultLookup (v : List (String × String)) (n : String) : Option String :=
  match v with
  | [] => none
  | (k, val) :: rest => if k = n then some val else vaultLookup rest n

/-- Store into the modelled vault, overwriting an existing entry. -/
def vaultUpsert (v : List (String × String)) (n val : String) : List (String × String) :=
  match v with
  | [] => [(n, val)]
  | (k, v0) :: rest =>
    if k = n then (k, val) :: rest else (k, v0) :: vaultUpsert rest n val

/-- Modelled from the spec: the external easykey binary's storage
semantics, which are not part of this source tree (the vault is "an opaque
external binary" whose `set` stores a named opaque value and whose
`get <name> --quiet` prints the stored value back). `set` exits zero and
records the value; `get` prints the stored value followed by a newline and
exits zero, or exits non-zero when the name is absent. -/
def vaultResp (v : List (String × String)) (args : List String) : ProcResult :=
  match args with
  | "set" :: _n :: _val :: _rest => ⟨0, "", ""⟩
  | "get" :: n :: "--quiet" :: _rest =>
    match vaultLookup v n with
    | some val => ⟨0, val ++ "\n", ""⟩
    | none => ⟨1, "", "Error: secret not found"⟩
  | _ => ⟨1, "", "Error: unknown command"⟩

/-- Modelled from the spec: the vault state after a successful
`set <name> <value>`. -/
def vaultAfterSet (v : List (String × String)) (n val : String) : List (String × String) :=
  vaultUpsert v n val

/-- A world whose subprocess behaves as the modelled vault in state `v`. -/
def vaultWorld (v : List (String × String)) : World :=
  { whichEasykey := some "/usr/local/bin/easykey"
    isFile := fun _ => false
    accessXOK := fun _ => false
    homedir := "/Users/u"
    pkgdir := "/pkg"
    run := fun _path args _stdin => some (vaultResp v args) }

/-- `set_secret` followed by `secret` on the same name, with no external
interference: the second call runs against exactly the state the first
call produced. -/
def setThenGet (v : List (String × String)) (n val : String)
    (r1 r2 : Option String) : Except PyError String :=
  match set_secret (vaultWorld v) n val r1 with
  | .error e => .error e
  | .ok _ => secret (vaultWorld (vaultAfterSet v n val)) n r2

/-- A world with no `shutil.which` hit, parameterized filesystem probes,
and a fixed subprocess outcome; used to instantiate the claims. -/
def probeWorld (hit : String → Bool) : World :=
  { whichEasykey := none
    isFile := hit
    accessXOK := hit
    homedir := "/Users/u"
    pkgdir := "/pkg"
    run := fun _ _ _ => some ⟨0, "", ""⟩ }

/-- A world that locates the binary on the search path and answers every
spawn with exit code `0` and the given stdout. -/
def stdoutWorld (out : String) : World :=
  { whichEasykey := some "/usr/local/bin/easykey"
    isFile := fun _ => false
    accessXOK := fun _ => false
    homedir := "/Users/u"
    pkgdir := "/pkg"
    run := fun _ _ _ => some ⟨0, out, ""⟩ }

/-- A world that locates the binary on the search path and answers every
spawn with the given exit code and stderr (empty stdout). -/
def stderrWorld (code : Int) (err : String) : World :=
  { whichEasykey := some "/usr/local/bin/easykey"
    isFile := fun _ => false
    accessXOK := fun _ => false
    homedir := "/Users/u"
    pkgdir := "/pkg"
    run := fun _ _ _ => some ⟨code, "", err⟩ }

theorem string_data_inj {s t : String} (h : s.data = t.data) : s = t :=
  congrArg String.mk h

theorem isPrefixOf_append_self (l m : List Char) : List.isPrefixOf l (l ++ m) = true := by
  induction l with
  | nil => cases m <;> rfl
  | cons a as ih => simp [List.isPrefixOf, ih]

theorem isPrefixOf_append_of_length_le (l m k : List Char) (h : l.length ≤ m.length) :
    List.isPrefixOf l (m ++ k) = List.isPrefixOf l m := by
  induction l generalizing m with
  | nil => cases m <;> cases k <;> rfl
  | cons a as ih =>
    cases m with
    | nil => simp at h
    | cons b bs =>
      show (a == b && List.isPrefixOf as (bs ++ k)) = (a == b && List.isPrefixOf as bs)
      rw [ih bs (by simpa using h)]

theorem commandFailedKind_cmdMsg (m : String) :
    commandFailedKind (.easyKeyError ("easykey command failed: " ++ m)) = true := by
  show (List.isPrefixOf "easykey command failed: ".data
          ("easykey command failed: ".data ++ m.data) || _) = true
  rw [isPrefixOf_append_self, Bool.true_or]

theorem commandFailedKind_cleanupMsg (m : String) :
    commandFailedKind (.easyKeyError ("Cleanup failed: " ++ m)) = true := by
  show (List.isPrefixOf "easykey command failed: ".data
          ("Cleanup failed: ".data ++ m.data) ||
        List.isPrefixOf "Cleanup failed: ".data
          ("Cleanup failed: ".data ++ m.data)) = true
  rw [isPrefixOf_append_self, Bool.or_true]

theorem outputParseErrorKind_parseMsg (m : String) :
    outputParseErrorKind (.easyKeyError ("Failed to parse easykey output: " ++ m)) = true := by
  show List.isPrefixOf "Failed to parse easykey output: ".data
        ("Failed to parse easykey output: ".data ++ m.data) = true
  rw [isPrefixOf_append_self]

theorem commandFailedKind_parseMsg (m : String) :
    commandFailedKind (.easyKeyError ("Failed to parse easykey output: " ++ m)) = false := by
  show (List.isPrefixOf "easykey command failed: ".data
          ("Failed to parse easykey output: ".data ++ m.data) ||
        List.isPrefixOf "Cleanup failed: ".data
          ("Failed to parse easykey output: ".data ++ m.data)) = false
  rw [isPrefixOf_append_of_length_le _ _ _ (by decide),
      isPrefixOf_append_of_length_le _ _ _ (by decide)]
  decide

theorem dropWhile_cons_of_not (p : Char → Bool) (a : Char) (t : List Char)
    (h : p a = false) : List.dropWhile p (a :: t) = a :: t := by
  simp [List.dropWhile_cons, h]

theorem not_head_of_dropWhile_fix (p : Char → Bool) (a : Char) (t : List Char)
    (h : List.dropWhile p (a :: t) = a :: t) : p a = false := by
  by_contra hne
  have hpa : p a = true := by
    cases hp : p a with
    | false => exact absurd hp hne
    | true => rfl
  rw [List.dropWhile_cons, if_pos hpa] at h
  have hle : (List.dropWhile p t).length ≤ t.length :=
    (List.dropWhile_suffix p).length_le
  rw [h] at hle
  simp at hle

theorem lstrip_append_left (l m : List Char) (hl : lstripChars l = l) (hln : l ≠ []) :
    lstripChars (l ++ m) = l ++ m := by
  unfold lstripChars at hl ⊢
  rw [List.dropWhile_append]
  have : (List.dropWhile isPySpace l).isEmpty = false := by
    rw [hl]; cases l with
    | nil => exact absurd rfl hln
    | cons a t => rfl
  rw [this]
  simp [hl]

theorem rstrip_fix_reverse (m : List Char) (hm : rstripChars m = m) :
    List.dropWhile isPySpace m.reverse = m.reverse := by
  unfold rstripChars at hm
  have := congrArg List.reverse hm
  simpa using this

theorem rstrip_append_right (l m : List Char) (hm : rstripChars m = m) (hmn : m ≠ []) :
    rstripChars (l ++ m) = l ++ m := by
  unfold rstripChars
  rw [List.reverse_append, List.dropWhile_append]
  have hrev := rstrip_fix_reverse m hm
  have : (List.dropWhile isPySpace m.reverse).isEmpty = false := by
    rw [hrev]; cases hr : m.reverse with
    | nil => exact absurd (by simpa using hr) hmn
    | cons a t => rfl
  rw [this]
  simp [hrev]

theorem stripChars_eq_self (l : List Char) (h1 : lstripChars l = l)
    (h2 : rstripChars l = l) : stripChars l = l := by
  unfold stripChars
  rw [h1, h2]

theorem strip_fix_parts (l : List Char) (h : stripChars l = l) :
    lstripChars l = l ∧ rstripChars l = l := by
  unfold stripChars at h
  have hsuf : lstripChars l <:+ l := List.dropWhile_suffix isPySpace
  have hlen1 : (rstripChars (lstripChars l)).length ≤ (lstripChars l).length := by
    unfold rstripChars
    have := (List.dropWhile_suffix (l := (lstripChars l).reverse) isPySpace).length_le
    simpa using this
  have hlen2 : (lstripChars l).length ≤ l.length := hsuf.length_le
  have hlenl : l.length ≤ (lstripChars l).length := by
    conv_lhs => rw [← h]
    exact hlen1
  have heq : lstripChars l = l := hsuf.eq_of_length (le_antisymm hlen2 hlenl)
  refine ⟨heq, ?_⟩
  rw [heq] at h
  exact h

theorem rstrip_cons (c : Char) (v : List Char) (hc : isPySpace c = false)
    (hv : rstripChars v = v) : rstripChars (c :: v) = c :: v := by
  cases hvv : v with
  | nil =>
    unfold rstripChars
    simp [List.dropWhile_cons, hc]
  | cons a t =>
    rw [← hvv]
    have : c :: v = [c] ++ v := rfl
    rw [this]
    exact rstrip_append_right [c] v hv (by rw [hvv]; exact List.cons_ne_nil a t)

theorem splitOnChar_of_not_mem (c : Char) (l : List Char) (h : c ∉ l) :
    splitOnChar c l = [l] := by
  induction l with
  | nil => rfl
  | cons a t ih =>
    have hat : c ∉ t := fun hm => h (List.mem_cons_of_mem a hm)
    have hac : a ≠ c := fun he => h (he ▸ List.mem_cons_self a t)
    unfold splitOnChar
    rw [ih hat]
    simp [hac]

theorem splitFirstOn_append (c : Char) (k v : List Char) (h : c ∉ k) :
    splitFirstOn c (k ++ c :: v) = some (k, v) := by
  induction k with
  | nil => simp [splitFirstOn]
  | cons a t ih =>
    have hat : c ∉ t := fun hm => h (List.mem_cons_of_mem a hm)
    have hac : a ≠ c := fun he => h (he ▸ List.mem_cons_self a t)
    show splitFirstOn c (a :: (t ++ c :: v)) = some (a :: t, v)
    simp only [splitFirstOn, if_neg hac, ih hat]

theorem find?_first_match (p : String → Bool) (l1 l2 : List String) (x : String)
    (h1 : ∀ q ∈ l1, p q = false) (hx : p x = true) :
    List.find? p (l1 ++ x :: l2) = some x := by
  induction l1 with
  | nil => simp [List.find?_cons, hx]
  | cons a t ih =>
    have ha : p a = false := h1 a (List.mem_cons_self a t)
    have ht : ∀ q ∈ t, p q = false := fun q hq => h1 q (List.mem_cons_of_mem a hq)
    show List.find? p (a :: (t ++ x :: l2)) = some x
    rw [List.find?_cons, ha]
    exact ih ht

theorem extractGo_of_all_none (ls : List (List Char))
    (h : ∀ l ∈ ls, parseRemovedLine l = none) : extractRemovedCountGo ls = 0 := by
  induction ls with
  | nil => rfl
  | cons l t ih =>
    unfold extractRemovedCountGo
    rw [h l (List.mem_cons_self l t)]
    exact ih fun q hq => h q (List.mem_cons_of_mem l hq)

theorem vaultLookup_upsert (v : List (String × String)) (n val : String) :
    vaultLookup (vaultUpsert v n val) n = some val := by
  induction v with
  | nil => simp [vaultUpsert, vaultLookup]
  | cons kv rest ih =>
    obtain ⟨k, v0⟩ := kv
    unfold vaultUpsert
    by_cases hk : k = n
    · simp [hk, vaultLookup]
    · simp only [if_neg hk]
      unfold vaultLookup
      rw [if_neg hk]
      exact ih

/-- Claim C1: in every environment, calling `cleanup_vault` with the
confirmation flag false fails with the `ConfirmationRequired` error
(the confirmation `ValueError`), and its external-action trace is empty:
no binary lookup happens and no subprocess is ever spawned on that
path. -/
theorem claimC1_thm (w : World) :
    cleanup_vault w false = (.error (.valueError cleanupConfirmMsg), []) ∧
    confirmationRequiredKind (.valueError cleanupConfirmMsg) = true :=
  ⟨rfl, by decide⟩

/-- Instance of claim C1 at a concrete world. -/
theorem claimC1_witness :
    cleanup_vault (stdoutWorld "ok\n") false =
      (.error (.valueError cleanupConfirmMsg), []) ∧
    confirmationRequiredKind (.valueError cleanupConfirmMsg) = true :=
  claimC1_thm (stdoutWorld "ok\n")

/-- Claim C5 (amended): with the confirmation flag true and a zero exit,
the returned count comes from scanning stdout line by line for a line
containing `"Removed"` and `"secrets"` as substrings and taking the
integer token immediately after the `"Removed"` token: on the quoted
stdout the result is `5`, and when no line yields a count the result is
`0` rather than a failure. -/
theorem claimC5_thm :
    (cleanup_vault (stdoutWorld "Removed 5 secrets using individual deletion.\n") true).1 =
      .ok 5 ∧
    ∀ (w : World) (path : String) (r : ProcResult),
      find_easykey_binary w = .ok path →
      w.run path ["cleanup"] (some "yes\n") = some r →
      r.returncode = 0 →
      (∀ l ∈ splitOnChar '\n' r.stdout.data, parseRemovedLine l = none) →
      (cleanup_vault w true).1 = .ok 0 := by
  constructor
  · rfl
  · intro w path r hfind hrun hrc hnone
    simp only [cleanup_vault, if_true, hfind, hrun]
    rw [if_neg (by simp [hrc])]
    unfold extractRemovedCount
    rw [extractGo_of_all_none _ hnone]

/-- Instance of claim C5's zero-fallback branch at a concrete stdout. -/
theorem claimC5_witness :
    (cleanup_vault (stdoutWorld "cleanup done\n") true).1 = .ok 0 :=
  claimC5_thm.2 (stdoutWorld "cleanup done\n") "/usr/local/bin/easykey"
    ⟨0, "cleanup done\n", ""⟩ rfl rfl rfl (by decide)

/-- Counterexample to claim C5 as stated: on the line
`"Removed 3 xsecrets"`, `"secrets"` occurs only as a substring, not as a
whitespace-delimited token, so the token-based selection the claim
describes matches no line and yields `0`; the code selects the line by
substring containment and returns `3`. -/
theorem claimC5_counterexample :
    (cleanup_vault (stdoutWorld "Removed 3 xsecrets") true).1 = .ok 3 ∧
    extractRemovedCount "Removed 3 xsecrets" = 3 ∧
    tokenSelectRemovedCount "Removed 3 xsecrets" = 0 ∧ (3 : Int) ≠ 0 :=
  ⟨rfl, rfl, rfl, by decide⟩

/-- Claim C6: when the `list` subprocess exits zero and its stdout strips
to the empty string, `list_secrets` returns the empty sequence rather
than an error. -/
theorem claimC6_thm (w : World) (path : String) (r : ProcResult) (ts : Bool)
    (hfind : find_easykey_binary w = .ok path)
    (hrun : w.run path (listArgs ts) none = some r)
    (hrc : r.returncode = 0)
    (hempty : pyStrip r.stdout = "") :
    list_secrets w ts = .ok (.arr []) := by
  simp [list_secrets, run_easykey_command, hfind, hrun, if_pos hrc, hempty]

/-- Instance of claim C6 at a whitespace-only stdout. -/
theorem claimC6_witness : list_secrets (stdoutWorld "  \n ") false = .ok (.arr []) :=
  claimC6_thm (stdoutWorld "  \n ") "/usr/local/bin/easykey"
    ⟨0, "  \n ", ""⟩ false rfl rfl rfl (by decide)

/-- Claim C2: when the `list` subprocess exits zero and its (stripped,
nonempty) stdout is not JSON-decodable, `list_secrets` fails with an
error of the `OutputParseError` kind, which is distinct from the
`CommandFailed` kind raised for non-zero exits. -/
theorem claimC2_thm (w : World) (path : String) (r : ProcResult) (ts : Bool)
    (hfind : find_easykey_binary w = .ok path)
    (hrun : w.run path (listArgs ts) none = some r)
    (hrc : r.returncode = 0)
    (hne : pyStrip r.stdout ≠ "")
    (hbad : jsonLoads (pyStrip r.stdout) = none) :
    list_secrets w ts = .error (.easyKeyError (jsonParseFailMsg (pyStrip r.stdout))) ∧
    outputParseErrorKind (.easyKeyError (jsonParseFailMsg (pyStrip r.stdout))) = true ∧
    commandFailedKind (.easyKeyError (jsonParseFailMsg (pyStrip r.stdout))) = false := by
  refine ⟨?_, outputParseErrorKind_parseMsg _, commandFailedKind_parseMsg _⟩
  simp [list_secrets, run_easykey_command, hfind, hrun, hrc, if_neg hne, hbad]

/-- Instance of claim C2 at the undecodable stdout `"nonsense"`. -/
theorem claimC2_witness :
    list_secrets (stdoutWorld "nonsense") false =
      .error (.easyKeyError (jsonParseFailMsg (pyStrip "nonsense"))) ∧
    outputParseErrorKind (.easyKeyError (jsonParseFailMsg (pyStrip "nonsense"))) = true ∧
    commandFailedKind (.easyKeyError (jsonParseFailMsg (pyStrip "nonsense"))) = false :=
  claimC2_thm (stdoutWorld "nonsense") "/usr/local/bin/easykey"
    ⟨0, "nonsense", ""⟩ false rfl rfl rfl (by decide) rfl

/-- Claim C10: `list_secrets` performs no shape validation on decoded
output: any JSON-decodable (stripped, nonempty) stdout of any shape is
returned unchanged, with no error. -/
theorem claimC10_thm (w : World) (path : String) (r : ProcResult) (ts : Bool) (j : JVal)
    (hfind : find_easykey_binary w = .ok path)
    (hrun : w.run path (listArgs ts) none = some r)
    (hrc : r.returncode = 0)
    (hne : pyStrip r.stdout ≠ "")
    (hok : jsonLoads (pyStrip r.stdout) = some j) :
    list_secrets w ts = .ok j := by
  simp [list_secrets, run_easykey_command, hfind, hrun, hrc, if_neg hne, hok]

/-- Instance of claim C10 at stdout `"7"`, a JSON number rather than an
array of records: the decoded number is returned as-is. -/
theorem claimC10_witness : list_secrets (stdoutWorld "7") false = .ok (.num "7") :=
  claimC10_thm (stdoutWorld "7") "/usr/local/bin/easykey"
    ⟨0, "7", ""⟩ false (.num "7") rfl rfl rfl (by decide) rfl

theorem run_easykey_command_fail (w : World) (path : String) (args : List String)
    (r : ProcResult) (hfind : find_easykey_binary w = .ok path)
    (hrun : w.run path args none = some r) (hrc : r.returncode ≠ 0) :
    run_easykey_command w args =
      .error (.easyKeyError (commandFailedMsg (path :: args) r)) := by
  simp [run_easykey_command, hfind, hrun, hrc]

/-- Claim C3 (amended): for every operation, a non-zero subprocess exit
yields a `CommandFailed`-kind error whose message is a fixed failure
prefix followed by the whitespace-stripped captured stderr, or the prefix
followed by a generic fallback message when stderr is empty
(`commandFailedMsg` and `cleanupFailedMsg` are exactly those message
forms). -/
theorem claimC3_thm (w : World) (path : String) (r : ProcResult)
    (n val : String) (rs : Option String) (ts : Bool)
    (hfind : find_easykey_binary w = .ok path)
    (hrun : ∀ args input, w.run path args input = some r)
    (hrc : r.returncode ≠ 0) :
    (secret w n rs = .error (.easyKeyError (commandFailedMsg (path :: secretArgs n rs) r)) ∧
     commandFailedKind (.easyKeyError (commandFailedMsg (path :: secretArgs n rs) r)) = true) ∧
    set_secret w n val rs =
      .error (.easyKeyError (commandFailedMsg (path :: ("set" :: n :: val :: reasonArgs rs)) r)) ∧
    remove_secret w n rs =
      .error (.easyKeyError (commandFailedMsg (path :: ("remove" :: n :: reasonArgs rs)) r)) ∧
    list_secrets w ts = .error (.easyKeyError (commandFailedMsg (path :: listArgs ts) r)) ∧
    status w = .error (.easyKeyError (commandFailedMsg (path :: ["status"]) r)) ∧
    (cleanup_vault w true).1 = .error (.easyKeyError (cleanupFailedMsg r)) ∧
    commandFailedKind (.easyKeyError (cleanupFailedMsg r)) = true := by
  refine ⟨⟨?_, commandFailedKind_cmdMsg _⟩, ?_, ?_, ?_, ?_, ?_, commandFailedKind_cleanupMsg _⟩
  · exact run_easykey_command_fail w path _ r hfind (hrun _ _) hrc
  · simp [set_secret, run_easykey_command_fail w path _ r hfind (hrun _ _) hrc]
  · simp [remove_secret, run_easykey_command_fail w path _ r hfind (hrun _ _) hrc]
  · simp [list_secrets, run_easykey_command_fail w path _ r hfind (hrun _ _) hrc]
  · simp [status, run_easykey_command_fail w path _ r hfind (hrun _ _) hrc]
  · simp [cleanup_vault, hfind, hrun ["cleanup"] (some "yes\n"), if_pos hrc]

/-- Instance of claim C3 (amended) for `secret` at concrete stderr. -/
theorem claimC3_witness :
    secret (stderrWorld 1 "boom\n") "k" none =
      .error (.easyKeyError "easykey command failed: boom") ∧
    commandFailedKind (.easyKeyError "easykey command failed: boom") = true :=
  (claimC3_thm (stderrWorld 1 "boom\n") "/usr/local/bin/easykey" ⟨1, "", "boom\n"⟩
    "k" "v" none false rfl (fun _ _ => rfl) (by decide)).1

/-- Counterexample to claim C3 as stated: with captured stderr
`"boom\n"`, the raised message is `"easykey command failed: boom"` — a
fixed prefix plus the stripped stderr — not the stderr text verbatim. -/
theorem claimC3_counterexample :
    secret (stderrWorld 1 "boom\n") "k" none =
      .error (.easyKeyError "easykey command failed: boom") ∧
    "easykey command failed: boom" ≠ "boom\n" :=
  ⟨rfl, by decide⟩

/-- Claim C8: binary location is strict first-match-wins: a search-path
hit is returned outright; otherwise the first of the fixed fallback
candidates (system bin, package-manager bin, per-user bin,
library-relative bin, in that order) that is an existing executable file
is returned; and when no candidate qualifies the call fails with the
`BinaryNotFound`-kind error whose message names the searched locations
(the search path and the standard fallback directories). -/
theorem claimC8_thm :
    (∀ (w : World) (p : String), w.whichEasykey = some p →
      find_easykey_binary w = .ok p) ∧
    (∀ (w : World) (p : String) (l1 l2 : List String),
      w.whichEasykey = none →
      commonPaths w = l1 ++ p :: l2 →
      (∀ q ∈ l1, binCandidateOK w q = false) →
      binCandidateOK w p = true →
      find_easykey_binary w = .ok p) ∧
    (∀ (w : World), w.whichEasykey = none →
      (∀ q ∈ commonPaths w, binCandidateOK w q = false) →
      find_easykey_binary w = .error (.easyKeyError binaryNotFoundMsg)) ∧
    binaryNotFoundKind (.easyKeyError binaryNotFoundMsg) = true ∧
    pyIn "PATH" binaryNotFoundMsg = true ∧
    pyIn "/usr/local/bin" binaryNotFoundMsg = true ∧
    pyIn "/opt/homebrew/bin" binaryNotFoundMsg = true ∧
    pyIn "~/bin" binaryNotFoundMsg = true := by
  refine ⟨?_, ?_, ?_, by decide, by decide, by decide, by decide, by decide⟩
  · intro w p h
    simp [find_easykey_binary, h]
  · intro w p l1 l2 hwhich hpaths h1 hp
    simp only [find_easykey_binary, hwhich]
    rw [hpaths, find?_first_match (binCandidateOK w) l1 l2 p h1 hp]
  · intro w hwhich hall
    simp only [find_easykey_binary, hwhich]
    rw [List.find?_eq_none.mpr fun x hx => by simp [hall x hx]]

/-- Instance of claim C8's fallback branch: no search-path hit, the
system-bin candidate fails the probe, the package-manager candidate
passes and is returned. -/
theorem claimC8_witness :
    find_easykey_binary (probeWorld (fun s => s = "/opt/homebrew/bin/easykey")) =
      .ok "/opt/homebrew/bin/easykey" :=
  claimC8_thm.2.1 (probeWorld (fun s => s = "/opt/homebrew/bin/easykey"))
    "/opt/homebrew/bin/easykey" ["/usr/local/bin/easykey"]
    ["/Users/u/bin/easykey", "/pkg/../../bin/easykey"]
    rfl (by decide) (by decide) (by decide)

theorem run_stdoutWorld (out : String) (args : List String) :
    run_easykey_command (stdoutWorld out) args = .ok (pyStrip out) := rfl

theorem status_stdoutWorld (out : String) :
    status (stdoutWorld out) = statusOfOutput (pyStrip out) := rfl

theorem data_ne_nil_of_ne_empty (s : String) (h : s ≠ "") : s.data ≠ [] :=
  fun hd => h (string_data_inj hd)

/-- Claim C7 (amended): when the `status` output's `secrets` value is not
parseable as an integer, `status` raises an error — the `ValueError` from
Python's `int()` conversion — so the parse failure is surfaced rather
than swallowed and no (partial) mapping is returned; but that error is
not of the `OutputParseError` kind (it is not an `EasyKeyError` at
all). -/
theorem claimC7_thm (v : String)
    (hne : v ≠ "")
    (hstrip : stripChars v.data = v.data)
    (hnl : '\n' ∉ v.data)
    (hbad : pyIntOfChars v.data = none) :
    status (stdoutWorld ("secrets: " ++ v)) = .error (.valueError (intLiteralErrMsg v)) ∧
    outputParseErrorKind (.valueError (intLiteralErrMsg v)) = false := by
  refine ⟨?_, rfl⟩
  obtain ⟨hl, hr⟩ := strip_fix_parts v.data hstrip
  have hvne : v.data ≠ [] := data_ne_nil_of_ne_empty v hne
  have hdata : ("secrets: " ++ v).data = "secrets".data ++ ':' :: ' ' :: v.data := rfl
  have hdata2 : ("secrets: " ++ v).data = "secrets: ".data ++ v.data := rfl
  have hstripAll : stripChars (("secrets: " ++ v).data) = ("secrets: " ++ v).data := by
    rw [hdata2]
    exact stripChars_eq_self _
      (lstrip_append_left _ _ (by decide) (by decide))
      (rstrip_append_right _ _ hr hvne)
  have hps : pyStrip ("secrets: " ++ v) = "secrets: " ++ v := string_data_inj hstripAll
  rw [status_stdoutWorld, hps]
  have hnotmem : '\n' ∉ ("secrets: " ++ v).data := by
    rw [hdata]
    intro h
    rcases List.mem_append.mp h with h1 | h2
    · exact absurd h1 (by decide)
    · rcases List.mem_cons.mp h2 with h3 | h4
      · exact absurd h3 (by decide)
      · rcases List.mem_cons.mp h4 with h5 | h6
        · exact absurd h5 (by decide)
        · exact hnl h6
  have hsplit : splitFirstOn ':' (("secrets: " ++ v).data) =
      some ("secrets".data, ' ' :: v.data) := by
    rw [hdata]
    exact splitFirstOn_append ':' "secrets".data (' ' :: v.data) (by decide)
  have hval : stripChars (' ' :: v.data) = v.data := by
    show rstripChars (List.dropWhile isPySpace (' ' :: v.data)) = v.data
    rw [List.dropWhile_cons, if_pos (by decide)]
    have hl' : List.dropWhile isPySpace v.data = v.data := hl
    rw [hl']
    exact hr
  unfold statusOfOutput
  rw [splitOnChar_of_not_mem '\n' _ hnotmem]
  unfold statusLinesGo
  simp only [statusLine, hsplit, hval]
  rw [if_pos (by decide), hbad]

/-- Instance of claim C7 (amended) at the unparseable value `"abc"`. -/
theorem claimC7_witness :
    status (stdoutWorld ("secrets: " ++ "abc")) =
      .error (.valueError (intLiteralErrMsg "abc")) ∧
    outputParseErrorKind (.valueError (intLiteralErrMsg "abc")) = false :=
  claimC7_thm "abc" (by decide) (by decide) (by decide) rfl

/-- Counterexample to claim C7 as stated: on `status` output
`"secrets: abc"` the surfaced error is the bare `ValueError` from
`int()`, which is not of the `OutputParseError` kind (not the uniform
library `EasyKeyError` condition the claim requires). -/
theorem claimC7_counterexample :
    status (stdoutWorld "secrets: abc") =
      .error (.valueError "invalid literal for int() with base 10: 'abc'") ∧
    outputParseErrorKind
      (.valueError "invalid literal for int() with base 10: 'abc'") = false :=
  ⟨rfl, rfl⟩

/-- Claim C4: `status` parses stdout as newline-delimited `key: value`
lines split on the first colon with both sides trimmed; the two quoted
inputs produce exactly the claimed mappings, and any line whose key is
neither `secrets` nor `last_access` is retained as a raw string under its
own key. -/
theorem claimC4_thm :
    status (stdoutWorld "secrets: 3\nlast_access: -\n") =
      .ok [("secrets", .int 3), ("last_access", .null)] ∧
    status (stdoutWorld "secrets: 0\nlast_access: 2024-01-01T00:00:00Z\n") =
      .ok [("secrets", .int 0), ("last_access", .str "2024-01-01T00:00:00Z")] ∧
    ∀ (k v : String),
      k ≠ "" → stripChars k.data = k.data → stripChars v.data = v.data →
      ':' ∉ k.data → '\n' ∉ k.data → '\n' ∉ v.data →
      k ≠ "secrets" → k ≠ "last_access" →
      status (stdoutWorld (k ++ ":" ++ v)) = .ok [(k, .str v)] := by
  refine ⟨rfl, rfl, ?_⟩
  intro k v hkne hk hv hkcolon hknl hvnl hks hkl
  obtain ⟨hkl1, hkr1⟩ := strip_fix_parts k.data hk
  have hkdne : k.data ≠ [] := data_ne_nil_of_ne_empty k hkne
  have hdata : (k ++ ":" ++ v).data = k.data ++ ':' :: v.data := by
    show (k.data ++ ":".data) ++ v.data = k.data ++ ':' :: v.data
    rw [List.append_assoc]
    rfl
  have hstripAll : stripChars ((k ++ ":" ++ v).data) = (k ++ ":" ++ v).data := by
    rw [hdata]
    exact stripChars_eq_self _ (lstrip_append_left _ _ hkl1 hkdne)
      (rstrip_append_right _ _
        (rstrip_cons ':' v.data (by decide) (strip_fix_parts v.data hv).2) (by simp))
  have hps : pyStrip (k ++ ":" ++ v) = k ++ ":" ++ v := string_data_inj hstripAll
  rw [status_stdoutWorld, hps]
  have hnotmem : '\n' ∉ (k ++ ":" ++ v).data := by
    rw [hdata]
    intro h
    rcases List.mem_append.mp h with h1 | h2
    · exact hknl h1
    · rcases List.mem_cons.mp h2 with h3 | h4
      · exact absurd h3 (by decide)
      · exact hvnl h4
  have hsplit : splitFirstOn ':' ((k ++ ":" ++ v).data) = some (k.data, v.data) := by
    rw [hdata]
    exact splitFirstOn_append ':' k.data v.data hkcolon
  have hkde1 : ¬ k.data = "secrets".data := fun h => hks (string_data_inj h)
  have hkde2 : ¬ k.data = "last_access".data := fun h => hkl (string_data_inj h)
  unfold statusOfOutput
  rw [splitOnChar_of_not_mem '\n' _ hnotmem]
  unfold statusLinesGo
  simp only [statusLine, hsplit, hk, hv]
  rw [if_neg hkde1, if_neg hkde2]
  rfl

/-- Instance of claim C4's pass-through branch at the unrecognized key
`"mode"`. -/
theorem claimC4_witness :
    status (stdoutWorld ("mode" ++ ":" ++ "fast")) = .ok [("mode", .str "fast")] :=
  claimC4_thm.2.2 "mode" "fast" (by decide) (by decide) (by decide) (by decide)
    (by decide) (by decide) (by decide) (by decide)

theorem set_vaultWorld (vst : List (String × String)) (n val : String)
    (rs : Option String) : set_secret (vaultWorld vst) n val rs = .ok () := rfl

theorem vaultResp_get (x : List (String × String)) (n : String) (rest : List String) :
    vaultResp x ("get" :: n :: "--quiet" :: rest) =
      (match vaultLookup x n with
       | some val => ⟨0, val ++ "\n", ""⟩
       | none => ⟨1, "", "Error: secret not found"⟩) := rfl

theorem pyStrip_append_newline (val : String) (h : stripChars val.data = val.data) :
    pyStrip (val ++ "\n") = val := by
  refine string_data_inj ?_
  show stripChars ((val ++ "\n").data) = val.data
  have hd : (val ++ "\n").data = val.data ++ ['\n'] := rfl
  rw [hd]
  obtain ⟨h1, h2⟩ := strip_fix_parts val.data h
  by_cases hch : val.data = []
  · rw [hch]; rfl
  · show rstripChars (lstripChars (val.data ++ ['\n'])) = val.data
    rw [lstrip_append_left _ _ h1 hch]
    unfold rstripChars
    rw [List.reverse_append]
    show (List.dropWhile isPySpace ('\n' :: val.data.reverse)).reverse = val.data
    rw [List.dropWhile_cons, if_pos (by decide), rstrip_fix_reverse val.data h2]
    exact List.reverse_reverse val.data

/-- Claim C9 (amended): in the spec-modelled vault with no external
interference, `set_secret` followed by `secret` on the same name returns
exactly the stored value, for every valid (nonempty) name and every value
that is invariant under whitespace stripping. -/
theorem claimC9_thm (vst : List (String × String)) (n val : String)
    (r1 r2 : Option String) (hn : n ≠ "")
    (hval : stripChars val.data = val.data) :
    setThenGet vst n val r1 r2 = .ok val := by
  unfold setThenGet
  rw [set_vaultWorld]
  have hresp : vaultResp (vaultAfterSet vst n val)
      ("get" :: n :: "--quiet" :: reasonArgs r2) = ProcResult.mk 0 (val ++ "\n") "" := by
    rw [vaultResp_get]
    show (match vaultLookup (vaultUpsert vst n val) n with
          | some v2 => ProcResult.mk 0 (v2 ++ "\n") ""
          | none => ProcResult.mk 1 "" "Error: secret not found") = _
    rw [vaultLookup_upsert]
  have hfind : find_easykey_binary (vaultWorld (vaultAfterSet vst n val)) =
      .ok "/usr/local/bin/easykey" := rfl
  have hrunEq : (vaultWorld (vaultAfterSet vst n val)).run "/usr/local/bin/easykey"
      ("get" :: n :: "--quiet" :: reasonArgs r2) none =
      some (ProcResult.mk 0 (val ++ "\n") "") := by
    show some (vaultResp (vaultAfterSet vst n val)
      ("get" :: n :: "--quiet" :: reasonArgs r2)) = _
    rw [hresp]
  show run_easykey_command (vaultWorld (vaultAfterSet vst n val))
      ("get" :: n :: "--quiet" :: reasonArgs r2) = .ok val
  simp only [run_easykey_command, hfind, hrunEq, if_true]
  rw [pyStrip_append_newline val hval]

/-- Instance of claim C9 (amended): a round-trip at a concrete name and
value. -/
theorem claimC9_witness :
    setThenGet [] "api_key" "hunter2" (some "deploy") none = .ok "hunter2" :=
  claimC9_thm [] "api_key" "hunter2" (some "deploy") none (by decide) (by decide)

/-- Counterexample to claim C9 as stated: the value `"x "` (with a
trailing space) does not round-trip — `secret` returns the stripped
stdout, so the retrieved value is `"x"`. -/
theorem claimC9_counterexample :
    setThenGet [] "api" "x " none none = .ok "x" ∧
    setThenGet [] "api" "x " none none ≠ .ok "x " := by
  refine ⟨rfl, fun h => ?_⟩
  have h2 : (Except.ok "x" : Except PyError String) = .ok "x " :=
    Eq.trans (Eq.symm (rfl : setThenGet [] "api" "x " none none = .ok "x")) h
  exact absurd (Except.ok.inj h2) (by decide)

end EasyKey
